import Mathlib

/-!
Verification of the question-processing orchestrator.

Shallow embedding of `src/questions_processing.py` (class `QuestionsProcessor`)
from the RAG-Challenge-2 repository, together with theorems settling the
specification claims about it.

Python values are modelled as follows: Python `int` is `Int`, Python strings
are `String`, Python `None`-able values are `Option`, a raised exception is
the `Except.error` branch of `Except PyErr`, and the heterogeneous result
dictionaries are structures holding exactly the keys the code writes.  The
external collaborators (retriever, answering API, subset CSV) are an explicit
environment `Env` of functions, since the spec places them out of scope and
only their interface matters.  The embedding fixes the
`new_challenge_pipeline = True` configuration, which is the result shape
(`question_text` / `kind` / `value` / `references`) all the claims speak about.
-/

namespace RAGChallenge

/-- One retrieval hit, as consumed by the orchestrator: the code reads
`result['page']` and `result['text']`. -/
structure RetrievalResult where
  page : Int
  text : String
deriving Repr, DecidableEq

/-- An evidence reference `{"pdf_sha1": ..., "page_index": ...}` as built by
`_extract_references`; `page_index` is 1-based internally. -/
structure Reference where
  pdf_sha1 : String
  page_index : Int
deriving Repr, DecidableEq

/-- The inner loop of `_validate_page_references` (lines 103-113): walk the
retrieval results in relevance order, appending each page not already present,
stopping (`break`) as soon as `min_pages` entries are reached.  The running
`existing_pages` set always equals the set of elements of the running list, so
membership is tested on the list itself. -/
def backfillLoop (min_pages : Nat) : List RetrievalResult → List Int → List Int
  | [], validated => validated
  | r :: rest, validated =>
    if r.page ∈ validated then backfillLoop min_pages rest validated
    else
      let v := validated ++ [r.page]
      if min_pages ≤ v.length then v else backfillLoop min_pages rest v

/-- `_validate_page_references(claimed_pages, retrieval_results, min_pages=2,
max_pages=8)` (lines 87-119).  `claimed_pages` may be Python `None` (mapped to
`[]`); claimed pages absent from the retrieved pages are dropped; if fewer than
`min_pages` remain and there are retrieval results, pages are backfilled; the
result is truncated to `max_pages` when longer.  The Python defaults are
`min_pages = 2`, `max_pages = 8`; call sites below pass them explicitly. -/
def validate_page_references (claimed_pages : Option (List Int))
    (retrieval_results : List RetrievalResult)
    (min_pages : Nat) (max_pages : Nat) : List Int :=
  let claimed := claimed_pages.getD []
  let retrieved_pages := retrieval_results.map RetrievalResult.page
  let validated := claimed.filter (fun p => decide (p ∈ retrieved_pages))
  let validated2 :=
    if validated.length < min_pages ∧ retrieval_results ≠ [] then
      backfillLoop min_pages retrieval_results validated
    else validated
  if max_pages < validated2.length then validated2.take max_pages else validated2

/-- Retrieval results with pages 2, 3, 4, 5 (relevance order), used for the
Reference Validator scenario of the spec's test property. -/
def c1Retrieval : List RetrievalResult :=
  [⟨2, "t2"⟩, ⟨3, "t3"⟩, ⟨4, "t4"⟩, ⟨5, "t5"⟩]

/-- The prefix property: the original list is a prefix of the backfilled one. -/
theorem backfillLoop_keeps (m : Nat) :
    ∀ (rest : List RetrievalResult) (v : List Int), v <+: backfillLoop m rest v := by
  intro rest
  induction rest with
  | nil => intro v; exact List.prefix_refl v
  | cons r rest ih =>
    intro v
    show v <+: (if r.page ∈ v then backfillLoop m rest v
      else if m ≤ (v ++ [r.page]).length then v ++ [r.page]
      else backfillLoop m rest (v ++ [r.page]))
    by_cases hmem : r.page ∈ v
    · rw [if_pos hmem]; exact ih v
    · rw [if_neg hmem]
      by_cases hlen : m ≤ (v ++ [r.page]).length
      · rw [if_pos hlen]; exact List.prefix_append v [r.page]
      · rw [if_neg hlen]
        exact (List.prefix_append v [r.page]).trans (ih (v ++ [r.page]))

/-- Every element of the backfilled list comes from the original list or from
the pages of the retrieval results walked over. -/
theorem backfillLoop_mem (m : Nat) :
    ∀ (rest : List RetrievalResult) (v : List Int) (x : Int),
      x ∈ backfillLoop m rest v → x ∈ v ∨ x ∈ rest.map (·.page) := by
  intro rest
  induction rest with
  | nil => intro v x hx; exact Or.inl hx
  | cons r rest ih =>
    intro v x hx
    have hx' : x ∈ (if r.page ∈ v then backfillLoop m rest v
        else if m ≤ (v ++ [r.page]).length then v ++ [r.page]
        else backfillLoop m rest (v ++ [r.page])) := hx
    by_cases hmem : r.page ∈ v
    · rw [if_pos hmem] at hx'
      rcases ih v x hx' with h | h
      · exact Or.inl h
      · right; simp [h]
    · rw [if_neg hmem] at hx'
      by_cases hlen : m ≤ (v ++ [r.page]).length
      · rw [if_pos hlen] at hx'
        rcases List.mem_append.mp hx' with h | h
        · exact Or.inl h
        · right; simp at h; simp [h]
      · rw [if_neg hlen] at hx'
        rcases ih (v ++ [r.page]) x hx' with h | h
        · rcases List.mem_append.mp h with h' | h'
          · exact Or.inl h'
          · right; simp at h'; simp [h']
        · right; simp [h]

/-- After the backfill loop, either the minimum has been reached or every
retrieved page walked over appears in the result. -/
theorem backfillLoop_cover (m : Nat) :
    ∀ (rest : List RetrievalResult) (v : List Int),
      m ≤ (backfillLoop m rest v).length ∨
        ∀ r ∈ rest, r.page ∈ backfillLoop m rest v := by
  intro rest
  induction rest with
  | nil => intro v; right; intro r hr; exact absurd hr (List.not_mem_nil r)
  | cons r rest ih =>
    intro v
    have hunfold : backfillLoop m (r :: rest) v =
        (if r.page ∈ v then backfillLoop m rest v
          else if m ≤ (v ++ [r.page]).length then v ++ [r.page]
          else backfillLoop m rest (v ++ [r.page])) := rfl
    rw [hunfold]
    by_cases hmem : r.page ∈ v
    · rw [if_pos hmem]
      rcases ih v with h | h
      · exact Or.inl h
      · right; intro r' hr'
        rcases List.mem_cons.mp hr' with heq | h'
        · rw [heq]
          exact (backfillLoop_keeps m rest v).sublist.subset hmem
        · exact h r' h'
    · rw [if_neg hmem]
      by_cases hlen : m ≤ (v ++ [r.page]).length
      · rw [if_pos hlen]; exact Or.inl hlen
      · rw [if_neg hlen]
        rcases ih (v ++ [r.page]) with h | h
        · exact Or.inl h
        · right; intro r' hr'
          rcases List.mem_cons.mp hr' with heq | h'
          · rw [heq]
            exact (backfillLoop_keeps m rest (v ++ [r.page])).sublist.subset
              (List.mem_append.mpr (Or.inr (List.mem_singleton.mpr rfl)))
          · exact h r' h'

/-- A duplicate-free list contained in another list is no longer than it. -/
theorem nodup_subset_length_le {d l : List Int} (hd : d.Nodup) (hsub : d ⊆ l) :
    d.length ≤ l.length := by
  have h1 : d.toFinset.card = d.length := List.toFinset_card_of_nodup hd
  have h2 : d.toFinset ⊆ l.toFinset := by
    intro x hx
    rw [List.mem_toFinset] at hx ⊢
    exact hsub hx
  calc d.length = d.toFinset.card := h1.symm
    _ ≤ l.toFinset.card := Finset.card_le_card h2
    _ ≤ l.length := List.toFinset_card_le l

/-- Core size/membership bounds for `_validate_page_references` with the default
parameters `min_pages = 2`, `max_pages = 8`: the output length lies between
`min 2 (number of distinct retrieved pages)` and `8`, and every output element
is a retrieved page. -/
theorem validate_bounds (claimed : Option (List Int)) (rs : List RetrievalResult) :
    min 2 ((rs.map RetrievalResult.page).dedup.length)
        ≤ (validate_page_references claimed rs 2 8).length ∧
    (validate_page_references claimed rs 2 8).length ≤ 8 ∧
    validate_page_references claimed rs 2 8 ⊆ rs.map RetrievalResult.page := by
  simp only [validate_page_references]
  set retrieved := rs.map RetrievalResult.page with hret
  set validated := (claimed.getD []).filter (fun p => decide (p ∈ retrieved)) with hv
  set validated2 := (if validated.length < 2 ∧ rs ≠ [] then backfillLoop 2 rs validated else validated) with hv2
  have hvsub : validated ⊆ retrieved := by
    intro x hx
    rw [hv] at hx
    have hmem := List.of_mem_filter hx
    simpa using hmem
  have hv2sub : validated2 ⊆ retrieved := by
    rw [hv2]
    by_cases hg : validated.length < 2 ∧ rs ≠ []
    · rw [if_pos hg]
      intro x hx
      rcases backfillLoop_mem 2 rs validated x hx with h | h
      · exact hvsub h
      · rw [hret]; exact h
    · rw [if_neg hg]; exact hvsub
  have hlow : 2 ⊓ retrieved.dedup.length ≤ validated2.length := by
    rw [hv2]
    by_cases hg : validated.length < 2 ∧ rs ≠ []
    · rw [if_pos hg]
      rcases backfillLoop_cover 2 rs validated with h | h
      · exact le_trans (min_le_left _ _) h
      · have hsubd : retrieved.dedup ⊆ backfillLoop 2 rs validated := by
          intro x hx
          have hx' : x ∈ retrieved := (List.dedup_sublist retrieved).subset hx
          rw [hret] at hx'
          rcases List.mem_map.mp hx' with ⟨r, hr, hpage⟩
          rw [← hpage]
          exact h r hr
        have hlen := nodup_subset_length_le (List.nodup_dedup retrieved) hsubd
        exact le_trans (min_le_right _ _) hlen
    · rw [if_neg hg]
      rcases not_and_or.mp hg with h2 | hnil
      · push_neg at h2
        exact le_trans (min_le_left _ _) h2
      · push_neg at hnil
        have hre : retrieved = [] := by rw [hret, hnil]; rfl
        rw [hre]
        simp
  by_cases htr : 8 < validated2.length
  · rw [if_pos htr]
    refine ⟨?_, ?_, ?_⟩
    · rw [List.length_take]
      have hm2 : 2 ⊓ retrieved.dedup.length ≤ 2 := min_le_left _ _
      omega
    · rw [List.length_take]; omega
    · intro x hx
      exact hv2sub ((List.take_subset 8 validated2) hx)
  · rw [if_neg htr]
    exact ⟨hlow, by omega, hv2sub⟩

/-- Retrieval results with pages 1..10 (relevance order), for the truncation
scenario of the spec's test property. -/
def c6Retrieval : List RetrievalResult :=
  [⟨1, "u1"⟩, ⟨2, "u2"⟩, ⟨3, "u3"⟩, ⟨4, "u4"⟩, ⟨5, "u5"⟩,
   ⟨6, "u6"⟩, ⟨7, "u7"⟩, ⟨8, "u8"⟩, ⟨9, "u9"⟩, ⟨10, "u10"⟩]

/-- C1 counterexample: the claim says the output for claimed pages `[3, 3, 9]`
over retrieved pages `{2, 3, 4, 5}` contains page 3 exactly once.  In fact
`_validate_page_references` keeps both copies of 3 (the hallucination filter
does not deduplicate), returns `[3, 3]`, and its count of 3 is not 1. -/
theorem c1_counterexample :
    validate_page_references (some [3, 3, 9]) c1Retrieval 2 8 = [3, 3] ∧
    ¬ (validate_page_references (some [3, 3, 9]) c1Retrieval 2 8).count 3 = 1 := by
  decide

/-- C1 (amended): for claimed pages `[3, 3, 9]` over retrieved pages
`{2, 3, 4, 5}` (`min_pages = 2`, `max_pages = 8`), the output excludes 9,
contains page 3 exactly twice (duplicated claimed pages that pass validation
are preserved), equals `[3, 3]`, and no padding from the remaining retrieved
pages occurs because 2 entries remain. -/
theorem c1_validator_dedup_amended :
    validate_page_references (some [3, 3, 9]) c1Retrieval 2 8 = [3, 3] ∧
    9 ∉ validate_page_references (some [3, 3, 9]) c1Retrieval 2 8 ∧
    (validate_page_references (some [3, 3, 9]) c1Retrieval 2 8).count 3 = 2 := by
  decide

/-- C6: for every claimed-pages list and retrieval result list, the validator's
output has size between `min 2 available` (where `available` is the number of
distinct retrieved pages) and 8, with every element among the retrieved pages;
and given the 10 valid claimed pages 1..10 with `max_pages = 8`, the output has
length exactly 8 and is a prefix of the claimed-then-backfilled sequence. -/
theorem c6_validator_size_bounds :
    (∀ (claimed : Option (List Int)) (rs : List RetrievalResult),
        min 2 ((rs.map RetrievalResult.page).dedup.length)
            ≤ (validate_page_references claimed rs 2 8).length ∧
        (validate_page_references claimed rs 2 8).length ≤ 8 ∧
        validate_page_references claimed rs 2 8 ⊆ rs.map RetrievalResult.page) ∧
    validate_page_references (some [1, 2, 3, 4, 5, 6, 7, 8, 9, 10]) c6Retrieval 2 8
        = [1, 2, 3, 4, 5, 6, 7, 8] ∧
    validate_page_references (some [1, 2, 3, 4, 5, 6, 7, 8, 9, 10]) c6Retrieval 2 8
        <+: [1, 2, 3, 4, 5, 6, 7, 8, 9, 10] := by
  refine ⟨fun claimed rs => validate_bounds claimed rs, by decide, ?_⟩
  exact ⟨[9, 10], by decide⟩

/-- C10: the validator is total on its edge inputs: Python `None` claimed
pages behave exactly like `[]`, and an empty retrieval result list yields `[]`
(no backfill is attempted) whatever the claimed pages are. -/
theorem c10_validator_edge_totality :
    (∀ rs : List RetrievalResult,
        validate_page_references none rs 2 8 = validate_page_references (some []) rs 2 8) ∧
    (∀ claimed : Option (List Int), validate_page_references claimed [] 2 8 = []) := by
  constructor
  · intro rs; rfl
  · intro claimed
    simp [validate_page_references]

/-! ## Python-level helpers: decimal rendering and parsing, string splitting -/

/-- Decimal digit character: `'0' + d` for a digit value `d < 10`. -/
def digitChar (d : Nat) : Char := Char.ofNat (48 + d)

/-- Fuel-indexed little-endian decimal digits (the fuel makes the recursion
structural, so the kernel can evaluate it on literals). -/
def decimalDigitsGo : Nat → Nat → List Nat
  | _, 0 => []
  | 0, _ => []
  | fuel + 1, n => n % 10 :: decimalDigitsGo fuel (n / 10)

/-- Little-endian decimal digits of a natural number; shown below to agree
with `Nat.digits 10`. -/
def decimalDigits (n : Nat) : List Nat := decimalDigitsGo n n

/-- Models Python `str` of a natural number: the standard decimal
representation used by the f-strings building `"#/answer_details/<i>"`. -/
def pyStrOfNat (n : Nat) : String :=
  if n = 0 then "0" else ⟨((decimalDigits n).map digitChar).reverse⟩

/-- Models Python `str` of an `int`. -/
def pyStrOfInt (i : Int) : String :=
  if i < 0 then "-" ++ pyStrOfNat i.natAbs else pyStrOfNat i.toNat

/-- Parse a nonempty all-decimal-digit character list to its value. -/
def digitsVal? (l : List Char) : Option Nat :=
  if l ≠ [] ∧ l.all (fun c => decide ('0' ≤ c) && decide (c ≤ '9')) then
    some (Nat.ofDigits 10 ((l.map (fun c => c.toNat - 48)).reverse))
  else none

/-- Models Python `int(s)` on the character list: an optional sign followed
by decimal digits parses; anything else raises `ValueError`, modelled as
`none`. -/
def pyIntOfChars? : List Char → Option Int
  | [] => none
  | c :: rest =>
    if c = '-' then (digitsVal? rest).map (fun n => -(n : Int))
    else if c = '+' then (digitsVal? rest).map (fun n => (n : Int))
    else (digitsVal? (c :: rest)).map (fun n => (n : Int))

/-- Models Python `int(s)`.  (Python also strips whitespace and allows `_`
separators; such inputs do not arise in this code.) -/
def pyIntOfString? (s : String) : Option Int := pyIntOfChars? s.data

/-- Models Python `str.split(sep)` for a one-character separator, on the
underlying character list; always returns at least one piece. -/
def splitChar (sep : Char) : List Char → List (List Char)
  | [] => [[]]
  | c :: rest =>
    if c = sep then [] :: splitChar sep rest
    else
      match splitChar sep rest with
      | [] => [[c]]
      | h :: t => (c :: h) :: t

/-- Models Python `str.startswith`. -/
def pyStartsWith (s pre : String) : Bool := pre.data.isPrefixOf s.data

/-! ## Data model of the orchestrator -/

/-- A raised Python exception: its type name and message. -/
structure PyErr where
  name : String
  msg : String
deriving Repr, DecidableEq

/-- The user-visible error string `f"{type(err).__name__}: {error_message}"`
built at lines 350 and 358. -/
def PyErr.render (e : PyErr) : String := e.name ++ ": " ++ e.msg

/-- Models `traceback.format_exc()`: an opaque human-readable trace of the
in-flight exception; only its presence in the error-shaped detail matters. -/
def format_exc (err : PyErr) : String := "Traceback: " ++ err.name ++ ": " ++ err.msg

/-- A structured answer dictionary as returned by the answering collaborator
(`APIProcessor.get_answer_from_rag_context`), restricted to the keys the
orchestrator reads.  `error` models presence of an `"error"` key;
`relevant_pages` models `answer_dict.get("relevant_pages", [])` with the
default already applied; `references` models `.get("references", [])`;
`response_data` models the diagnostic payload the API processor exposes after
the call. -/
structure AnswerDict where
  final_answer : Option String
  step_by_step_analysis : Option String
  reasoning_summary : Option String
  relevant_pages : List Int
  error : Option String
  references : List Reference
  response_data : String
deriving Repr, DecidableEq

/-- The external collaborators, specified only at their interface boundary:
retrieval (which may itself raise), the answering service for single and
comparative contexts, question decomposition, company-name extraction from the
subset file, and the subset sha1 lookup (empty string when unresolved). -/
structure Env where
  retrieve : String → String → Except PyErr (List RetrievalResult)
  answer_from_rag_context : String → String → String → Except PyErr AnswerDict
  answer_comparative : String → List (String × AnswerDict) → String → Except PyErr AnswerDict
  rephrased_questions : String → List String → Except PyErr (String → Option String)
  extract_companies : String → List String
  sha1_of_company : String → String

/-- `_format_retrieval_results` (lines 56-67). -/
def format_retrieval_results (retrieval_results : List RetrievalResult) : String :=
  if retrieval_results = [] then ""
  else String.intercalate "\n\n---\n\n"
    (retrieval_results.map (fun result =>
      "Text retrieved from page " ++ pyStrOfInt result.page ++ ": \n\"\"\"\n"
        ++ result.text ++ "\n\"\"\""))

/-- `_extract_references` (lines 69-85): look up the company's sha1 from the
subset file (via the environment) and pair it with each page. -/
def extract_references (env : Env) (pages_list : List Int) (company_name : String) :
    List Reference :=
  pages_list.map (fun page => ⟨env.sha1_of_company company_name, page⟩)

/-- `get_answer_for_company` (lines 121-161) in the `new_challenge_pipeline`
configuration: retrieve context, raise `ValueError("No relevant context
found")` when empty, ask the answering service, then validate the claimed
pages and attach the extracted references. -/
def get_answer_for_company (env : Env) (company_name question schema : String) :
    Except PyErr AnswerDict := do
  let retrieval_results ← env.retrieve company_name question
  if retrieval_results = [] then
    throw ⟨"ValueError", "No relevant context found"⟩
  else
    let rag_context := format_retrieval_results retrieval_results
    let answer_dict ← env.answer_from_rag_context question rag_context schema
    let validated_pages :=
      validate_page_references (some answer_dict.relevant_pages) retrieval_results 2 8
    pure { answer_dict with
      relevant_pages := validated_pages
      references := extract_references env validated_pages company_name }

/-- The helper closure `process_company_question` of
`process_comparative_question` (lines 470-481), including the Python
truthiness test `if not sub_question` (missing key or empty string). -/
def process_company_question (env : Env) (rephrased : String → Option String)
    (company : String) : Except PyErr (String × AnswerDict) :=
  match rephrased company with
  | none =>
    throw ⟨"ValueError", "Could not generate sub-question for company: " ++ company⟩
  | some sub_question =>
    if sub_question = "" then
      throw ⟨"ValueError", "Could not generate sub-question for company: " ++ company⟩
    else do
      let answer_dict ← get_answer_for_company env company sub_question "number"
      pure (company, answer_dict)

/-- Python dict assignment `unique_refs[key] = ref` (line 505): insertion
order of first key occurrence is kept, the stored value is the latest. -/
def dictInsert (acc : List ((String × Int) × Reference)) (r : Reference) :
    List ((String × Int) × Reference) :=
  let key := (r.pdf_sha1, r.page_index)
  if acc.any (fun kv => decide (kv.1 = key)) then
    acc.map (fun kv => if kv.1 = key then (key, r) else kv)
  else acc ++ [(key, r)]

/-- The reference deduplication of lines 501-506, keyed by
`(pdf_sha1, page_index)`. -/
def dedup_references (refs : List Reference) : List Reference :=
  (refs.foldl dictInsert []).map (fun kv => kv.2)

/-- The collection loop over the per-company futures (lines 489-499): gather
each company's `(company, answer)` pair, re-raising the first failure, which
aborts the whole comparative question.  The pool's `as_completed` order is
nondeterministic; the model collects in company order (the claims do not
depend on which sub-failure surfaces first). -/
def collectCompanyAnswers (env : Env) (rephrased : String → Option String) :
    List String → Except PyErr (List (String × AnswerDict))
  | [] => .ok []
  | company :: rest =>
    match process_company_question env rephrased company with
    | .error e => .error e
    | .ok pair =>
      match collectCompanyAnswers env rephrased rest with
      | .error e => .error e
      | .ok pairs => .ok (pair :: pairs)

/-- `process_comparative_question` (lines 453-518): decompose, run every
company's sub-question (any sub-task exception re-raised at line 499 fails
the whole question), deduplicate the aggregated references, and ask for the
combined comparative answer. -/
def process_comparative_question (env : Env) (question : String)
    (companies : List String) (schema : String) : Except PyErr AnswerDict :=
  match env.rephrased_questions question companies with
  | .error e => .error e
  | .ok rephrased =>
    match collectCompanyAnswers env rephrased companies with
    | .error e => .error e
    | .ok pairs =>
      let aggregated_references := (pairs.map (fun p => p.2.references)).flatten
      let unique := dedup_references aggregated_references
      match env.answer_comparative question pairs "comparative" with
      | .error e => .error e
      | .ok comparative_answer => .ok { comparative_answer with references := unique }

/-- `process_question` (lines 184-198) with `new_challenge_pipeline = True`:
extract company names from the subset, raise when none is found, answer
directly for exactly one, and delegate to the comparative coordinator for
more. -/
def process_question (env : Env) (question schema : String) : Except PyErr AnswerDict :=
  match env.extract_companies question with
  | [] => throw ⟨"ValueError", "No company name found in the question."⟩
  | [company_name] => get_answer_for_company env company_name question schema
  | companies => process_comparative_question env question companies schema

/-- One entry of the `self.answer_details` ledger: the success-shaped record
written by `_create_answer_detail_ref` (lines 200-211) or the error-shaped
record written by `_handle_processing_error` (lines 331-337). -/
inductive AnswerDetail where
  | success (step_by_step_analysis : Option String) (reasoning_summary : Option String)
      (relevant_pages : Option (List Int)) (response_data : String) (selfRef : String)
  | failure (error_traceback : String) (selfRef : String)
deriving Repr, DecidableEq

/-- The `"self"` key both record shapes carry. -/
def AnswerDetail.selfRefOf : AnswerDetail → String
  | .success _ _ _ _ s => s
  | .failure _ s => s

/-- `record.get("step_by_step_analysis")`: present (possibly `None`) on the
success shape, absent on the error shape. -/
def AnswerDetail.step_by_step_get : AnswerDetail → Option String
  | .success s _ _ _ _ => s
  | .failure _ _ => none

/-- `_create_answer_detail_ref` (lines 200-211): build the handle
`"#/answer_details/<index>"` and the success-shaped record stored under it. -/
def create_answer_detail_ref (step_by_step reasoning : Option String)
    (relevant_pages : Option (List Int)) (response_data : String)
    (question_index : Nat) : String × AnswerDetail :=
  let ref_id := "#/answer_details/" ++ pyStrOfNat question_index
  (ref_id, .success step_by_step reasoning relevant_pages response_data ref_id)

/-- The per-question output dictionary in the `new_challenge_pipeline` shape:
keys `question_text`, `kind`, `value`, `references`, the optional `error`, and
the handle under `answer_details.$ref`. -/
structure ProcessedResult where
  question_text : String
  kind : String
  value : Option String
  references : List Reference
  error : Option String
  answer_details_ref : String
deriving Repr, DecidableEq

/-- One input question in the new-pipeline shape (`text` and `kind`). -/
structure Question where
  text : String
  kind : String
deriving Repr, DecidableEq

/-- `_handle_processing_error` (lines 322-360) in the new-pipeline shape:
store the error-shaped record at the question's index and return the error
result with `value = None`, empty references, and the `"<kind>: <message>"`
error string. -/
def handle_processing_error (question_text schema : String) (err : PyErr)
    (question_index : Nat) : ProcessedResult × (Nat × AnswerDetail) :=
  let error_ref := "#/answer_details/" ++ pyStrOfNat question_index
  let error_detail := AnswerDetail.failure (format_exc err) error_ref
  (⟨question_text, schema, none, [], some err.render, error_ref⟩,
    (question_index, error_detail))

/-- `_process_single_question` (lines 268-320) with
`new_challenge_pipeline = True`.  Its only shared-state effect is the single
locked write of the detail record at the question's own index, so it returns
the processed result together with that one `(index, record)` write. -/
def process_single_question (env : Env) (question_data : Question × Nat) :
    ProcessedResult × (Nat × AnswerDetail) :=
  let question_index := question_data.2
  let question_text := question_data.1.text
  let schema := question_data.1.kind
  match process_question env question_text schema with
  | .error err => handle_processing_error question_text schema err question_index
  | .ok answer_dict =>
    match answer_dict.error with
    | some e =>
      let pair := create_answer_detail_ref none none none
        answer_dict.response_data question_index
      (⟨question_text, schema, none, [], some e, pair.1⟩, (question_index, pair.2))
    | none =>
      let pair := create_answer_detail_ref answer_dict.step_by_step_analysis
        answer_dict.reasoning_summary (some answer_dict.relevant_pages)
        answer_dict.response_data question_index
      (⟨question_text, schema, answer_dict.final_answer, answer_dict.references,
        none, pair.1⟩, (question_index, pair.2))

/-- The run statistics of `_calculate_statistics`; Python integers, so the
derived `success_count` may in principle be any integer. -/
structure Statistics where
  total_questions : Int
  error_count : Int
  na_count : Int
  success_count : Int
deriving Repr, DecidableEq

/-- `_calculate_statistics` (lines 213-231): counts recomputed from the result
list at call time; `success_count = total - errors - N/A`.  In the
new-pipeline shape the `"value"` key is always present, so the N/A test reads
it directly. -/
def calculate_statistics (processed_questions : List ProcessedResult) : Statistics :=
  let total_questions : Int := processed_questions.length
  let error_count : Int :=
    (processed_questions.filter (fun q => q.error.isSome)).length
  let na_count : Int :=
    (processed_questions.filter (fun q => decide (q.value = some "N/A"))).length
  ⟨total_questions, error_count, na_count,
    total_questions - error_count - na_count⟩

/-- Fuel-indexed helper for `chunks`; the fuel is the list length, enough for
any step of at least one element. -/
def chunksGo (P : Nat) : Nat → List α → List (List α)
  | _, [] => []
  | 0, xs => [xs]
  | fuel + 1, xs => xs.take P :: chunksGo P fuel (xs.drop P)

/-- The batch slices `questions_with_index[i : i + parallel_threads]` walked
by the scheduler loop `for i in range(0, total_questions, parallel_threads)`
(lines 249-250). -/
def chunks (P : Nat) (xs : List α) : List (List α) := chunksGo P xs.length xs

/-- The ledger writes `self.answer_details[question_index] = record`, applied
in order; each pipeline run performs exactly one such locked write. -/
def applyWrites (ledger : List (Option AnswerDetail))
    (ws : List (Nat × AnswerDetail)) : List (Option AnswerDetail) :=
  ws.foldl (fun led w => led.set w.1 (some w.2)) ledger

/-- The triple returned by `process_questions_list` (lines 262-266). -/
structure RunOutput where
  questions : List ProcessedResult
  answer_details : List (Option AnswerDetail)
  statistics : Statistics
deriving Repr, DecidableEq

/-- `process_questions_list` (lines 233-266) without the progress-file side
effects: index every question, preallocate the detail ledger with `None`,
then either process strictly sequentially (`parallel_requests <= 1`) or in
consecutive batches of `parallel_requests` questions.  Within a batch the
results come from `executor.map`, which returns them in input order
regardless of completion order (noted at line 252), so a batch is modelled as
an order-preserving map; the detail-ledger writes land at each question's own
index under the store's lock. -/
def process_questions_list (env : Env) (questions_list : List Question)
    (parallel_requests : Nat) : RunOutput :=
  let total_questions := questions_list.length
  let questions_with_index := questions_list.enum.map (fun iq => (iq.2, iq.1))
  let ledger0 : List (Option AnswerDetail) := List.replicate total_questions none
  let outs :=
    if parallel_requests ≤ 1 then
      questions_with_index.map (process_single_question env)
    else
      ((chunks parallel_requests questions_with_index).map
        (fun batch => batch.map (process_single_question env))).flatten
  let processed_questions := outs.map (fun o => o.1)
  ⟨processed_questions,
    applyWrites ledger0 (outs.map (fun o => o.2)),
    calculate_statistics processed_questions⟩

/-- The handle-resolution block of `_post_process_submission_answers`
(lines 378-386): require a nonempty handle of the `"#/answer_details/"` form,
parse its trailing integer, bounds-check it, require the slot to be filled,
and read the record's `step_by_step_analysis`; a `ValueError` from `int` (or
an `IndexError`) is caught and yields `None`. -/
def resolve_step_by_step (answer_details : List (Option AnswerDetail))
    (answer_details_ref : String) : Option String :=
  if answer_details_ref ≠ "" ∧ pyStartsWith answer_details_ref "#/answer_details/" then
    match pyIntOfString? ⟨(splitChar '/' answer_details_ref.data).getLastD []⟩ with
    | none => none
    | some index =>
      if 0 ≤ index ∧ index < (answer_details.length : Int) then
        match answer_details.getD index.toNat none with
        | some detail => detail.step_by_step_get
        | none => none
      else none
  else none

/-- One submission answer: `question_text`, `kind`, `value`, 0-based
`references`, and the optional `reasoning_process` narrative field. -/
structure SubmissionAnswer where
  question_text : String
  kind : String
  value : Option String
  references : List Reference
  reasoning_process : Option String
deriving Repr, DecidableEq

/-- The body of the export loop of `_post_process_submission_answers`
(lines 372-411) for one processed result: force the value to `"N/A"` when an
error is present, resolve the narrative via the detail handle, clear the
references when the value is `"N/A"` and otherwise shift every page index
from 1-based to 0-based; the narrative key is attached only when truthy
(non-`None` and nonempty). -/
def submission_answer_of (answer_details : List (Option AnswerDetail))
    (q : ProcessedResult) : SubmissionAnswer :=
  let value := if q.error.isSome then some "N/A" else q.value
  let step_by_step := resolve_step_by_step answer_details q.answer_details_ref
  let references :=
    if value = some "N/A" then []
    else q.references.map (fun ref => ⟨ref.pdf_sha1, ref.page_index - 1⟩)
  let reasoning_process :=
    match step_by_step with
    | some s => if s = "" then none else some s
    | none => none
  ⟨q.question_text, q.kind, value, references, reasoning_process⟩

/-- `_post_process_submission_answers` (lines 362-413). -/
def post_process_submission_answers (answer_details : List (Option AnswerDetail))
    (processed_questions : List ProcessedResult) : List SubmissionAnswer :=
  processed_questions.map (submission_answer_of answer_details)

/-! ## Facts about the decimal and splitting helpers -/

/-- The fuel-indexed digits agree with `Nat.digits 10` whenever the fuel
covers the number. -/
theorem decimalDigitsGo_eq_digits :
    ∀ (fuel n : Nat), n ≤ fuel → decimalDigitsGo fuel n = Nat.digits 10 n := by
  intro fuel
  induction fuel with
  | zero =>
    intro n hn
    have h0 : n = 0 := Nat.le_zero.mp hn
    rw [h0, Nat.digits_zero]
    simp [decimalDigitsGo]
  | succ fuel ih =>
    intro n hn
    match n with
    | 0 =>
      rw [Nat.digits_zero]
      simp [decimalDigitsGo]
    | k + 1 =>
      have hle : (k + 1) / 10 ≤ fuel := by
        have hlt : (k + 1) / 10 < k + 1 := Nat.div_lt_self (Nat.succ_pos k) (by norm_num)
        omega
      show (k + 1) % 10 :: decimalDigitsGo fuel ((k + 1) / 10) = Nat.digits 10 (k + 1)
      rw [ih _ hle]
      exact (Nat.digits_def' (by norm_num) (Nat.succ_pos k)).symm

theorem decimalDigits_eq (n : Nat) : decimalDigits n = Nat.digits 10 n :=
  decimalDigitsGo_eq_digits n n le_rfl

theorem decimalDigits_lt (n d : Nat) (hd : d ∈ decimalDigits n) : d < 10 := by
  rw [decimalDigits_eq] at hd
  exact Nat.digits_lt_base (by norm_num) hd

theorem decimalDigits_ne_nil {n : Nat} (hn : n ≠ 0) : decimalDigits n ≠ [] := by
  rw [decimalDigits_eq]
  exact Nat.digits_ne_nil_iff_ne_zero.mpr hn

theorem ofDigits_decimalDigits (n : Nat) : Nat.ofDigits 10 (decimalDigits n) = n := by
  rw [decimalDigits_eq]; exact Nat.ofDigits_digits 10 n

/-- Everything needed about one decimal digit character. -/
theorem digitChar_bounds {d : Nat} (hd : d < 10) :
    ('0' ≤ digitChar d ∧ digitChar d ≤ '9') ∧ (digitChar d).toNat - 48 = d ∧
    digitChar d ≠ '-' ∧ digitChar d ≠ '+' ∧ digitChar d ≠ '/' := by
  interval_cases d <;> decide

theorem pyStrOfNat_data {n : Nat} (h0 : n ≠ 0) :
    (pyStrOfNat n).data = ((decimalDigits n).map digitChar).reverse := by
  unfold pyStrOfNat; rw [if_neg h0]

/-- Parsing the decimal rendering of `n` recovers `n`. -/
theorem digitsVal_pyStrOfNat (n : Nat) : digitsVal? (pyStrOfNat n).data = some n := by
  by_cases h0 : n = 0
  · rw [h0]; rfl
  · rw [pyStrOfNat_data h0]
    unfold digitsVal?
    rw [if_pos ?cond]
    case cond =>
      constructor
      · simp only [ne_eq, List.reverse_eq_nil_iff, List.map_eq_nil_iff]
        exact decimalDigits_ne_nil h0
      · rw [List.all_eq_true]
        intro c hc
        rw [List.mem_reverse] at hc
        rcases List.mem_map.mp hc with ⟨d, hdmem, hcd⟩
        have hb := (digitChar_bounds (decimalDigits_lt n d hdmem)).1
        rw [← hcd]
        simp [hb.1, hb.2]
    · congr 1
      have hmaps : (((decimalDigits n).map digitChar).reverse.map
            (fun c => c.toNat - 48)).reverse = decimalDigits n := by
        rw [List.map_reverse, List.reverse_reverse, List.map_map]
        have hpt : ∀ d ∈ decimalDigits n,
            ((fun c => c.toNat - 48) ∘ digitChar) d = id d := by
          intro d hdmem
          exact (digitChar_bounds (decimalDigits_lt n d hdmem)).2.1
        rw [List.map_congr_left hpt, List.map_id]
      rw [hmaps]
      exact ofDigits_decimalDigits n

/-- Python `int` of Python `str` of a natural number round-trips. -/
theorem pyIntOfString_pyStrOfNat (n : Nat) :
    pyIntOfString? (pyStrOfNat n) = some (n : Int) := by
  by_cases h0 : n = 0
  · rw [h0]; rfl
  · obtain ⟨c, rest, hd⟩ : ∃ c rest, (pyStrOfNat n).data = c :: rest := by
      cases hcase : (pyStrOfNat n).data with
      | nil =>
        exfalso
        rw [pyStrOfNat_data h0] at hcase
        rw [List.reverse_eq_nil_iff, List.map_eq_nil_iff] at hcase
        exact decimalDigits_ne_nil h0 hcase
      | cons c rest => exact ⟨c, rest, rfl⟩
    have hcmem : c ∈ (pyStrOfNat n).data := by
      rw [hd]; exact List.mem_cons_self c rest
    rw [pyStrOfNat_data h0, List.mem_reverse] at hcmem
    rcases List.mem_map.mp hcmem with ⟨d, hdmem, hcd⟩
    have hb := digitChar_bounds (decimalDigits_lt n d hdmem)
    have hc1 : ¬ c = '-' := by rw [← hcd]; exact hb.2.2.1
    have hc2 : ¬ c = '+' := by rw [← hcd]; exact hb.2.2.2.1
    show pyIntOfChars? (pyStrOfNat n).data = some (n : Int)
    rw [hd]
    show (if c = '-' then (digitsVal? rest).map (fun k => -(k : Int))
      else if c = '+' then (digitsVal? rest).map (fun k => (k : Int))
      else (digitsVal? (c :: rest)).map (fun k => (k : Int))) = some (n : Int)
    rw [if_neg hc1, if_neg hc2, ← hd, digitsVal_pyStrOfNat]
    rfl

/-- `splitChar` always returns at least one piece. -/
theorem splitChar_ne_nil (sep : Char) : ∀ l, splitChar sep l ≠ [] := by
  intro l
  induction l with
  | nil => simp [splitChar]
  | cons c rest ih =>
    show (if c = sep then [] :: splitChar sep rest
      else match splitChar sep rest with
        | [] => [[c]]
        | h :: t => (c :: h) :: t) ≠ []
    by_cases hc : c = sep
    · rw [if_pos hc]; simp
    · rw [if_neg hc]
      cases hs : splitChar sep rest with
      | nil => simp
      | cons h t => simp

/-- Splitting a separator-free list returns it whole. -/
theorem splitChar_no_sep (sep : Char) : ∀ l, sep ∉ l → splitChar sep l = [l] := by
  intro l
  induction l with
  | nil => intro _; rfl
  | cons c rest ih =>
    intro h
    have hc : ¬ c = sep := fun hc => h (by rw [hc]; exact List.mem_cons_self sep rest)
    have h' : sep ∉ rest := fun hm => h (List.mem_cons_of_mem c hm)
    show (if c = sep then [] :: splitChar sep rest
      else match splitChar sep rest with
        | [] => [[c]]
        | h :: t => (c :: h) :: t) = [c :: rest]
    rw [if_neg hc, ih h']

/-- Splitting a list containing the separator yields at least two pieces. -/
theorem splitChar_length_two (sep : Char) : ∀ l, sep ∈ l → 2 ≤ (splitChar sep l).length := by
  intro l
  induction l with
  | nil => intro h; cases h
  | cons c rest ih =>
    intro h
    show 2 ≤ (if c = sep then [] :: splitChar sep rest
      else match splitChar sep rest with
        | [] => [[c]]
        | h :: t => (c :: h) :: t).length
    by_cases hc : c = sep
    · rw [if_pos hc]
      cases hs : splitChar sep rest with
      | nil => exact absurd hs (splitChar_ne_nil sep rest)
      | cons a t => simp [hs]
    · rw [if_neg hc]
      have hmem : sep ∈ rest := by
        rcases List.mem_cons.mp h with h1 | h1
        · exact absurd h1.symm hc
        · exact h1
      have h2 := ih hmem
      cases hs : splitChar sep rest with
      | nil => exact absurd hs (splitChar_ne_nil sep rest)
      | cons a t =>
        rw [hs] at h2
        simp only [List.length_cons] at h2 ⊢
        omega

/-- The default of `getLastD` is irrelevant on a nonempty list. -/
theorem getLastD_irrel {α : Type} (t : List α) (ht : t ≠ []) (a b : α) :
    t.getLastD a = t.getLastD b := by
  rw [List.getLastD_eq_getLast?, List.getLastD_eq_getLast?]
  cases hlast : t.getLast? with
  | none => exact absurd (List.getLast?_eq_none_iff.mp hlast) ht
  | some x => rfl

/-- The last piece of splitting `xs ++ sep :: ys` with `sep ∉ ys` is `ys`. -/
theorem splitChar_getLastD (sep : Char) (ys : List Char) (hys : sep ∉ ys) :
    ∀ xs, (splitChar sep (xs ++ sep :: ys)).getLastD [] = ys := by
  intro xs
  induction xs with
  | nil =>
    show (if sep = sep then [] :: splitChar sep ys
      else match splitChar sep ys with
        | [] => [[sep]]
        | h :: t => (sep :: h) :: t).getLastD [] = ys
    rw [if_pos rfl, splitChar_no_sep sep ys hys]
    rfl
  | cons x xs ih =>
    show (if x = sep then [] :: splitChar sep (xs ++ sep :: ys)
      else match splitChar sep (xs ++ sep :: ys) with
        | [] => [[x]]
        | h :: t => (x :: h) :: t).getLastD [] = ys
    by_cases hx : x = sep
    · rw [if_pos hx, List.getLastD_cons]
      exact ih
    · rw [if_neg hx]
      have hmem : sep ∈ xs ++ sep :: ys :=
        List.mem_append.mpr (Or.inr (List.mem_cons_self sep ys))
      have hlen := splitChar_length_two sep _ hmem
      cases hs : splitChar sep (xs ++ sep :: ys) with
      | nil => exact absurd hs (splitChar_ne_nil sep _)
      | cons h t =>
        rw [hs] at hlen ih
        have ht : t ≠ [] := by
          intro h'
          rw [h'] at hlen
          simp at hlen
        rw [List.getLastD_cons] at ih ⊢
        rw [getLastD_irrel t ht (x :: h) h]
        exact ih

/-- No decimal rendering contains a slash. -/
theorem pyStrOfNat_no_slash (n : Nat) : '/' ∉ (pyStrOfNat n).data := by
  by_cases h0 : n = 0
  · rw [h0]; decide
  · rw [pyStrOfNat_data h0, List.mem_reverse]
    intro hc
    rcases List.mem_map.mp hc with ⟨d, hdmem, hcd⟩
    exact (digitChar_bounds (decimalDigits_lt n d hdmem)).2.2.2.2 hcd

/-- Splitting off the handle prefix. -/
theorem ref_data (s : String) :
    ("#/answer_details/" ++ s).data = "#/answer_details".data ++ '/' :: s.data := by
  rw [String.data_append]
  rfl

/-- The handle built for index `i` parses back to `i`. -/
theorem ref_resolves (i : Nat) :
    pyIntOfString? ⟨(splitChar '/' ("#/answer_details/" ++ pyStrOfNat i).data).getLastD []⟩
      = some (i : Int) := by
  rw [ref_data,
    splitChar_getLastD '/' (pyStrOfNat i).data (pyStrOfNat_no_slash i) "#/answer_details".data]
  show pyIntOfString? (pyStrOfNat i) = some (i : Int)
  exact pyIntOfString_pyStrOfNat i

/-- A character list is a Boolean prefix of itself followed by anything. -/
theorem isPrefixOf_append_self (l1 l2 : List Char) :
    l1.isPrefixOf (l1 ++ l2) = true := by
  induction l1 with
  | nil => simp [List.isPrefixOf]
  | cons c rest ih => simp [List.isPrefixOf, ih]

/-- The handle built for any index has the expected shape. -/
theorem ref_startsWith (s : String) :
    pyStartsWith ("#/answer_details/" ++ s) "#/answer_details/" = true := by
  unfold pyStartsWith
  rw [String.data_append]
  exact isPrefixOf_append_self _ _

/-- The handle is never the empty string. -/
theorem ref_ne_empty (s : String) : ("#/answer_details/" ++ s) ≠ "" := by
  intro h
  have hlen : ("#/answer_details/" ++ s).length = ("" : String).length := by rw [h]
  rw [String.length_append] at hlen
  have h17 : ("#/answer_details/" : String).length = 17 := rfl
  have h0 : ("" : String).length = 0 := rfl
  omega

/-! ## Scheduler lemmas -/

theorem chunksGo_flatten {α : Type} (P : Nat) (hP : 1 ≤ P) :
    ∀ (fuel : Nat) (xs : List α), xs.length ≤ fuel → (chunksGo P fuel xs).flatten = xs := by
  intro fuel
  induction fuel with
  | zero =>
    intro xs h
    have h0 : xs = [] := List.eq_nil_of_length_eq_zero (Nat.le_zero.mp h)
    rw [h0]
    rfl
  | succ fuel ih =>
    intro xs h
    match xs with
    | [] => rfl
    | y :: ys =>
      have hlen : ((y :: ys).drop P).length ≤ fuel := by
        rw [List.length_drop]
        simp only [List.length_cons] at h ⊢
        omega
      show ((y :: ys).take P :: chunksGo P fuel ((y :: ys).drop P)).flatten = y :: ys
      rw [List.flatten_cons, ih _ hlen]
      exact List.take_append_drop P (y :: ys)

theorem chunks_flatten {α : Type} (P : Nat) (hP : 1 ≤ P) (xs : List α) :
    (chunks P xs).flatten = xs :=
  chunksGo_flatten P hP xs.length xs le_rfl

/-- Both scheduler branches produce the per-question outputs of the indexed
questions, in input order. -/
theorem process_outs (env : Env) (questions_list : List Question) (P : Nat) (hP : 1 ≤ P) :
    (if P ≤ 1 then
        (questions_list.enum.map (fun iq => (iq.2, iq.1))).map (process_single_question env)
      else
        ((chunks P (questions_list.enum.map (fun iq => (iq.2, iq.1)))).map
          (fun batch => batch.map (process_single_question env))).flatten)
      = (questions_list.enum.map (fun iq => (iq.2, iq.1))).map
          (process_single_question env) := by
  by_cases h1 : P ≤ 1
  · rw [if_pos h1]
  · rw [if_neg h1, ← List.map_flatten, chunks_flatten P hP]

/-- `process_questions_list`, rewritten as one order-preserving pass. -/
theorem process_questions_list_eq (env : Env) (questions_list : List Question)
    (P : Nat) (hP : 1 ≤ P) :
    process_questions_list env questions_list P =
      ⟨(questions_list.enum.map (fun iq => (iq.2, iq.1))).map
          (fun qd => (process_single_question env qd).1),
        applyWrites (List.replicate questions_list.length none)
          ((questions_list.enum.map (fun iq => (iq.2, iq.1))).map
            (fun qd => (process_single_question env qd).2)),
        calculate_statistics
          ((questions_list.enum.map (fun iq => (iq.2, iq.1))).map
            (fun qd => (process_single_question env qd).1))⟩ := by
  simp only [process_questions_list]
  rw [process_outs env questions_list P hP]
  simp only [List.map_map]
  rfl

theorem applyWrites_cons (led : List (Option AnswerDetail)) (w : Nat × AnswerDetail)
    (ws : List (Nat × AnswerDetail)) :
    applyWrites led (w :: ws) = applyWrites (led.set w.1 (some w.2)) ws := rfl

theorem applyWrites_length :
    ∀ (ws : List (Nat × AnswerDetail)) (led : List (Option AnswerDetail)),
      (applyWrites led ws).length = led.length := by
  intro ws
  induction ws with
  | nil => intro led; rfl
  | cons w ws ih =>
    intro led
    rw [applyWrites_cons, ih, List.length_set]

/-- A slot no write touches keeps its contents. -/
theorem applyWrites_notin :
    ∀ (ws : List (Nat × AnswerDetail)) (led : List (Option AnswerDetail)) (j : Nat),
      j ∉ ws.map Prod.fst → (applyWrites led ws)[j]? = led[j]? := by
  intro ws
  induction ws with
  | nil => intro led j _; rfl
  | cons w ws ih =>
    intro led j h
    rw [List.map_cons] at h
    have h1 : j ≠ w.1 := fun he => h (by rw [he]; exact List.mem_cons_self w.1 _)
    have h2 : j ∉ ws.map Prod.fst := fun hm => h (List.mem_cons_of_mem _ hm)
    rw [applyWrites_cons, ih _ j h2, List.getElem?_set_ne (Ne.symm h1)]

/-- With pairwise-distinct write indices, each written slot holds its own
record afterwards (so the outcome is independent of write order). -/
theorem applyWrites_mem :
    ∀ (ws : List (Nat × AnswerDetail)) (led : List (Option AnswerDetail))
      (j : Nat) (d : AnswerDetail),
      (ws.map Prod.fst).Nodup → (j, d) ∈ ws → j < led.length →
      (applyWrites led ws)[j]? = some (some d) := by
  intro ws
  induction ws with
  | nil => intro led j d _ hmem _; cases hmem
  | cons w ws ih =>
    intro led j d hnod hmem hlt
    rw [List.map_cons, List.nodup_cons] at hnod
    rcases List.mem_cons.mp hmem with heq | hmem'
    · rw [applyWrites_cons]
      rw [← heq] at hnod
      rw [applyWrites_notin ws _ j hnod.1, ← heq]
      exact List.getElem?_set_self hlt
    · rw [applyWrites_cons]
      have hlt' : j < (led.set w.1 (some w.2)).length := by
        rw [List.length_set]; exact hlt
      exact ih _ j d hnod.2 hmem' hlt'

/-- The single ledger write of one pipeline run lands at the question's own
index, and the stored record's `self` handle names that index. -/
theorem process_single_question_write (env : Env) (qd : Question × Nat) :
    (process_single_question env qd).2.1 = qd.2 ∧
    (process_single_question env qd).2.2.selfRefOf
      = "#/answer_details/" ++ pyStrOfNat qd.2 := by
  simp only [process_single_question]
  cases hpq : process_question env qd.1.text qd.1.kind with
  | error err =>
    simp [handle_processing_error, AnswerDetail.selfRefOf]
  | ok answer_dict =>
    cases he : answer_dict.error with
    | some e => simp [he, create_answer_detail_ref, AnswerDetail.selfRefOf]
    | none => simp [he, create_answer_detail_ref, AnswerDetail.selfRefOf]

/-- When processing raises, the single catch produces exactly the error
result and the error-shaped detail write of `_handle_processing_error`. -/
theorem process_single_question_error (env : Env) (qd : Question × Nat) (err : PyErr)
    (herr : process_question env qd.1.text qd.1.kind = .error err) :
    process_single_question env qd =
      (⟨qd.1.text, qd.1.kind, none, [], some err.render,
          "#/answer_details/" ++ pyStrOfNat qd.2⟩,
        (qd.2, AnswerDetail.failure (format_exc err)
          ("#/answer_details/" ++ pyStrOfNat qd.2))) := by
  simp only [process_single_question, herr]
  rfl

/-! ## Concrete environments and inputs for witnesses -/

/-- A concrete environment where no company is ever recognised, so every
question raises `ValueError("No company name found in the question.")`. -/
def envNoCompany : Env :=
  ⟨fun _ _ => .ok [],
    fun _ _ _ => .error ⟨"RuntimeError", "unused"⟩,
    fun _ _ _ => .error ⟨"RuntimeError", "unused"⟩,
    fun _ _ => .error ⟨"RuntimeError", "unused"⟩,
    fun _ => [],
    fun _ => ""⟩

/-- The decomposition mapping both companies to sub-questions. -/
def rephBoth : String → Option String := fun company =>
  if company = "A" then some "sub-a" else if company = "B" then some "sub-b" else none

/-- The answering collaborator's reply for company `A`. -/
def apiAnswerA : AnswerDict :=
  ⟨some "7", some "analysis-a", some "summary-a", [1], none, [], "resp-a"⟩

/-- `A`'s sub-answer after page validation and reference extraction. -/
def ansAval : AnswerDict :=
  ⟨some "7", some "analysis-a", some "summary-a", [1], none, [⟨"", 1⟩], "resp-a"⟩

/-- A concrete environment with companies `A` and `B`: `A`'s retrieval and
answering succeed, `B`'s retrieval is empty, so `B`'s sub-pipeline raises
`ValueError("No relevant context found")`. -/
def envBFails : Env :=
  ⟨fun company _ => if company = "A" then .ok [⟨1, "ctx-a"⟩] else .ok [],
    fun _ _ _ => .ok apiAnswerA,
    fun _ _ _ => .ok apiAnswerA,
    fun _ _ => .ok rephBoth,
    fun _ => ["A", "B"],
    fun _ => ""⟩

/-- A one-slot ledger whose only slot is unfilled. -/
def c9Ledger : List (Option AnswerDetail) := [none]

/-- A non-error processed result with a 1-based page reference. -/
def c7q : ProcessedResult :=
  ⟨"Q", "number", some "42", [⟨"sha", 1⟩], none, "#/answer_details/0"⟩

/-! ## Claim theorems (C2, C3, C4, C5, C7, C8, C9) -/

/-- C2: for every question list and configured parallelism `P ≥ 1`, the
scheduler returns one processed result per question, the i-th being the
processing of the i-th input question — independent of `P` and, because a
batch's results are positioned by `executor.map` at their input slots, of
completion order under concurrency. -/
theorem c2_result_order (env : Env) (questions_list : List Question) (P : Nat)
    (hP : 1 ≤ P) :
    (process_questions_list env questions_list P).questions
        = questions_list.enum.map
            (fun iq => (process_single_question env (iq.2, iq.1)).1) ∧
    (process_questions_list env questions_list P).questions.length
        = questions_list.length := by
  rw [process_questions_list_eq env questions_list P hP]
  constructor
  · simp only [List.map_map]
    rfl
  · simp only [List.map_map, List.length_map, List.enum_length]

theorem c2_result_order_witness :
    (process_questions_list envNoCompany [⟨"q0", "number"⟩] 1).questions
        = ([⟨"q0", "number"⟩] : List Question).enum.map
            (fun iq => (process_single_question envNoCompany (iq.2, iq.1)).1) ∧
    (process_questions_list envNoCompany [⟨"q0", "number"⟩] 1).questions.length
        = ([⟨"q0", "number"⟩] : List Question).length :=
  c2_result_order envNoCompany [⟨"q0", "number"⟩] 1 (by decide)

/-- C3: `_process_single_question` is a total function of its inputs (no
exception escapes), and whenever processing raises — `process_question`
returning an error, which includes comparative sub-failures — the single
`except` handler converts it into the error result carrying the
`"<kind>: <message>"` string and an empty reference list, plus the
error-shaped Answer Detail at the question's own index. -/
theorem c3_exception_to_error_result (env : Env) (question_data : Question × Nat)
    (err : PyErr)
    (herr : process_question env question_data.1.text question_data.1.kind
      = .error err) :
    process_single_question env question_data =
      (⟨question_data.1.text, question_data.1.kind, none, [],
          some (err.name ++ ": " ++ err.msg),
          "#/answer_details/" ++ pyStrOfNat question_data.2⟩,
        (question_data.2,
          AnswerDetail.failure (format_exc err)
            ("#/answer_details/" ++ pyStrOfNat question_data.2))) :=
  process_single_question_error env question_data err herr

theorem c3_exception_to_error_result_witness :
    process_single_question envNoCompany (⟨"q0", "number"⟩, 0) =
      (⟨"q0", "number", none, [],
          some ("ValueError" ++ ": " ++ "No company name found in the question."),
          "#/answer_details/" ++ pyStrOfNat 0⟩,
        (0, AnswerDetail.failure
          (format_exc ⟨"ValueError", "No company name found in the question."⟩)
          ("#/answer_details/" ++ pyStrOfNat 0))) :=
  c3_exception_to_error_result envNoCompany (⟨"q0", "number"⟩, 0)
    ⟨"ValueError", "No company name found in the question."⟩ rfl

/-- C4: after a full run over `N` questions the Answer Detail ledger has
exactly `N` entries, every slot is filled — index `i` holding exactly the
record written by question `i` (no gaps, no duplicates) — and each record's
`self` handle is `"#/answer_details/<i>"`, which has the resolvable shape and
parses back to the record's own index. -/
theorem c4_ledger_complete (env : Env) (questions_list : List Question) (P : Nat)
    (hP : 1 ≤ P) :
    (process_questions_list env questions_list P).answer_details.length
        = questions_list.length ∧
    ∀ i, (hi : i < questions_list.length) →
      ∃ d : AnswerDetail,
        (process_questions_list env questions_list P).answer_details[i]?
            = some (some d) ∧
        d.selfRefOf = "#/answer_details/" ++ pyStrOfNat i ∧
        pyStartsWith d.selfRefOf "#/answer_details/" = true ∧
        pyIntOfString? ⟨(splitChar '/' d.selfRefOf.data).getLastD []⟩
            = some (i : Int) := by
  rw [process_questions_list_eq env questions_list P hP]
  constructor
  · show (applyWrites (List.replicate questions_list.length none) _).length = _
    rw [applyWrites_length, List.length_replicate]
  · intro i hi
    have hqwi_i : (questions_list.enum.map (fun iq => (iq.2, iq.1)))[i]?
        = some (questions_list[i], i) := by
      rw [List.getElem?_map, List.getElem?_enum, List.getElem?_eq_getElem hi]
      rfl
    have hws_i : ((questions_list.enum.map (fun iq => (iq.2, iq.1))).map
          (fun qd => (process_single_question env qd).2))[i]?
        = some ((process_single_question env (questions_list[i], i)).2) := by
      rw [List.getElem?_map, hqwi_i]
      rfl
    have hw := process_single_question_write env (questions_list[i], i)
    have hidx : (((questions_list.enum.map (fun iq => (iq.2, iq.1))).map
          (fun qd => (process_single_question env qd).2)).map Prod.fst)
        = List.range questions_list.length := by
      simp only [List.map_map]
      refine Eq.trans (List.map_congr_left ?_) (List.enum_map_fst questions_list)
      intro iq _
      show (process_single_question env (iq.2, iq.1)).2.1 = iq.1
      exact (process_single_question_write env (iq.2, iq.1)).1
    have hnod : ((((questions_list.enum.map (fun iq => (iq.2, iq.1))).map
          (fun qd => (process_single_question env qd).2)).map Prod.fst)).Nodup := by
      rw [hidx]
      exact List.nodup_range questions_list.length
    have hw1 : (process_single_question env (questions_list[i], i)).2.1 = i := hw.1
    have hpair : (process_single_question env (questions_list[i], i)).2
        = (i, (process_single_question env (questions_list[i], i)).2.2) :=
      Prod.ext hw1 rfl
    have hmem : ((i : Nat), (process_single_question env (questions_list[i], i)).2.2)
        ∈ (questions_list.enum.map (fun iq => (iq.2, iq.1))).map
            (fun qd => (process_single_question env qd).2) := by
      rw [← hpair]
      exact List.getElem?_mem hws_i
    refine ⟨(process_single_question env (questions_list[i], i)).2.2, ?_, hw.2, ?_, ?_⟩
    · exact applyWrites_mem _ _ i _ hnod hmem
        (by rw [List.length_replicate]; exact hi)
    · rw [hw.2]
      exact ref_startsWith (pyStrOfNat i)
    · rw [hw.2]
      exact ref_resolves i

theorem c4_ledger_complete_witness :
    (process_questions_list envNoCompany [⟨"q0", "number"⟩] 1).answer_details.length
        = ([⟨"q0", "number"⟩] : List Question).length ∧
    ∃ d : AnswerDetail,
      (process_questions_list envNoCompany [⟨"q0", "number"⟩] 1).answer_details[0]?
          = some (some d) ∧
      d.selfRefOf = "#/answer_details/" ++ pyStrOfNat 0 ∧
      pyStartsWith d.selfRefOf "#/answer_details/" = true ∧
      pyIntOfString? ⟨(splitChar '/' d.selfRefOf.data).getLastD []⟩
          = some ((0 : Nat) : Int) :=
  ⟨(c4_ledger_complete envNoCompany [⟨"q0", "number"⟩] 1 (by decide)).1,
    (c4_ledger_complete envNoCompany [⟨"q0", "number"⟩] 1 (by decide)).2 0 (by decide)⟩

/-- C5: for a comparative question over entities `[A, B]`, if `B`'s
sub-pipeline (retrieval or answering) fails while `A`'s succeeds, the whole
comparative question fails with that error and `_process_single_question`
returns the single error result for the combined question, with empty
references — `A`'s successful sub-answer is not emitted as a separate result
and no partial comparative answer is produced. -/
theorem c5_comparative_subfailure (env : Env) (q : Question) (i : Nat)
    (A B : String) (rephrased : String → Option String) (ansA : String × AnswerDict)
    (err : PyErr)
    (hext : env.extract_companies q.text = [A, B])
    (hreph : env.rephrased_questions q.text [A, B] = .ok rephrased)
    (hA : process_company_question env rephrased A = .ok ansA)
    (hB : process_company_question env rephrased B = .error err) :
    process_single_question env (q, i) =
      (⟨q.text, q.kind, none, [], some err.render,
          "#/answer_details/" ++ pyStrOfNat i⟩,
        (i, AnswerDetail.failure (format_exc err)
          ("#/answer_details/" ++ pyStrOfNat i))) := by
  have hq : process_question env q.text q.kind = .error err := by
    unfold process_question
    simp only [hext]
    unfold process_comparative_question
    simp only [hreph]
    have hcollect : collectCompanyAnswers env rephrased [A, B] = .error err := by
      unfold collectCompanyAnswers
      simp only [hA]
      unfold collectCompanyAnswers
      simp only [hB]
    simp only [hcollect]
  exact process_single_question_error env (q, i) err hq

theorem c5_comparative_subfailure_witness :
    process_single_question envBFails (⟨"cmp", "number"⟩, 0) =
      (⟨"cmp", "number", none, [],
          some (PyErr.render ⟨"ValueError", "No relevant context found"⟩),
          "#/answer_details/" ++ pyStrOfNat 0⟩,
        (0, AnswerDetail.failure
          (format_exc ⟨"ValueError", "No relevant context found"⟩)
          ("#/answer_details/" ++ pyStrOfNat 0))) :=
  c5_comparative_subfailure envBFails ⟨"cmp", "number"⟩ 0 "A" "B" rephBoth
    ("A", ansAval) ⟨"ValueError", "No relevant context found"⟩ rfl rfl rfl rfl

/-- C7: in submission export, the i-th exported answer is the translation of
the i-th processed result, where an error forces the value to the `"N/A"`
sentinel, any `"N/A"`-valued answer gets an empty reference list whatever its
input references, and a non-error, non-`"N/A"` result has every 1-based
`page_index` converted to 0-based (so `page_index = 1` becomes `0`). -/
theorem c7_submission_export (answer_details : List (Option AnswerDetail))
    (processed_questions : List ProcessedResult) (i : Nat) (q : ProcessedResult)
    (hq : processed_questions[i]? = some q) :
    (post_process_submission_answers answer_details processed_questions)[i]?
        = some (submission_answer_of answer_details q) ∧
    (q.error.isSome →
      (submission_answer_of answer_details q).value = some "N/A") ∧
    ((submission_answer_of answer_details q).value = some "N/A" →
      (submission_answer_of answer_details q).references = []) ∧
    (q.error = none → ¬ q.value = some "N/A" →
      (submission_answer_of answer_details q).references
        = q.references.map (fun ref => ⟨ref.pdf_sha1, ref.page_index - 1⟩)) := by
  refine ⟨?_, ?_, ?_, ?_⟩
  · unfold post_process_submission_answers
    rw [List.getElem?_map, hq]
    rfl
  · intro herr
    show (if q.error.isSome = true then some "N/A" else q.value) = some "N/A"
    rw [if_pos herr]
  · intro hv
    have hv' : (if q.error.isSome = true then some "N/A" else q.value)
        = some "N/A" := hv
    show (if (if q.error.isSome = true then some "N/A" else q.value) = some "N/A"
        then ([] : List Reference)
        else q.references.map (fun ref => ⟨ref.pdf_sha1, ref.page_index - 1⟩)) = []
    rw [if_pos hv']
  · intro herr hnv
    have his : q.error.isSome = false := by rw [herr]; rfl
    show (if (if q.error.isSome = true then some "N/A" else q.value) = some "N/A"
        then ([] : List Reference)
        else q.references.map (fun ref => ⟨ref.pdf_sha1, ref.page_index - 1⟩))
      = q.references.map (fun ref => ⟨ref.pdf_sha1, ref.page_index - 1⟩)
    rw [if_neg ?hcond]
    case hcond =>
      rw [his]
      simpa using hnv

theorem c7_submission_export_witness :
    ((post_process_submission_answers [] [c7q])[0]?
        = some (submission_answer_of [] c7q) ∧
      (c7q.error.isSome → (submission_answer_of [] c7q).value = some "N/A") ∧
      ((submission_answer_of [] c7q).value = some "N/A" →
        (submission_answer_of [] c7q).references = []) ∧
      (c7q.error = none → ¬ c7q.value = some "N/A" →
        (submission_answer_of [] c7q).references
          = c7q.references.map (fun ref => ⟨ref.pdf_sha1, ref.page_index - 1⟩))) ∧
    (submission_answer_of [] c7q).references = [⟨"sha", 0⟩] :=
  ⟨c7_submission_export [] [c7q] 0 c7q rfl, by decide⟩

/-- C8: for every list of processed results the computed statistics satisfy
`success_count + error_count + na_count = total`, with `total` the length of
the list; and the statistics of a run are recomputed from its result list by
`_calculate_statistics` at call time, not cached. -/
theorem c8_statistics_sum (processed_questions : List ProcessedResult) :
    (calculate_statistics processed_questions).success_count
        + (calculate_statistics processed_questions).error_count
        + (calculate_statistics processed_questions).na_count
        = (processed_questions.length : Int) ∧
    (calculate_statistics processed_questions).total_questions
        = (processed_questions.length : Int) ∧
    ∀ (env : Env) (questions_list : List Question) (P : Nat),
      (process_questions_list env questions_list P).statistics
        = calculate_statistics
            (process_questions_list env questions_list P).questions := by
  refine ⟨?_, rfl, ?_⟩
  · simp only [calculate_statistics]
    ring
  · intro env questions_list P
    rfl

/-- C9: resolving an Answer Detail handle that is malformed (empty, not of
the `"#/answer_details/"` form, or with a non-integer suffix) or out of range
(index outside the ledger, or an unfilled slot) yields `None`; the resolver
is a total function, so nothing is raised. -/
theorem c9_handle_resolution_tolerant (answer_details : List (Option AnswerDetail))
    (ref : String) :
    (¬ (ref ≠ "" ∧ pyStartsWith ref "#/answer_details/" = true) →
        resolve_step_by_step answer_details ref = none) ∧
    (pyIntOfString? ⟨(splitChar '/' ref.data).getLastD []⟩ = none →
        resolve_step_by_step answer_details ref = none) ∧
    (∀ index : Int,
        pyIntOfString? ⟨(splitChar '/' ref.data).getLastD []⟩ = some index →
        ¬ (0 ≤ index ∧ index < (answer_details.length : Int)) →
        resolve_step_by_step answer_details ref = none) ∧
    (∀ index : Int,
        pyIntOfString? ⟨(splitChar '/' ref.data).getLastD []⟩ = some index →
        (0 ≤ index ∧ index < (answer_details.length : Int)) →
        answer_details.getD index.toNat none = none →
        resolve_step_by_step answer_details ref = none) := by
  unfold resolve_step_by_step
  by_cases hguard : ref ≠ "" ∧ pyStartsWith ref "#/answer_details/" = true
  · rw [if_pos hguard]
    refine ⟨fun h => absurd hguard h, ?_, ?_, ?_⟩
    · intro hparse
      simp only [hparse]
    · intro index hparse hrange
      simp only [hparse]
      rw [if_neg hrange]
    · intro index hparse hrange hslot
      simp only [hparse]
      rw [if_pos hrange, hslot]
  · rw [if_neg hguard]
    exact ⟨fun _ => rfl, fun _ => rfl, fun _ _ _ => rfl, fun _ _ _ _ => rfl⟩

theorem c9_handle_resolution_tolerant_witness :
    resolve_step_by_step c9Ledger "bogus" = none ∧
    resolve_step_by_step c9Ledger "#/answer_details/x" = none ∧
    resolve_step_by_step c9Ledger "#/answer_details/5" = none ∧
    resolve_step_by_step c9Ledger "#/answer_details/0" = none :=
  ⟨(c9_handle_resolution_tolerant c9Ledger "bogus").1 (by decide),
    (c9_handle_resolution_tolerant c9Ledger "#/answer_details/x").2.1 rfl,
    (c9_handle_resolution_tolerant c9Ledger "#/answer_details/5").2.2.1 5 rfl
      (by decide),
    (c9_handle_resolution_tolerant c9Ledger "#/answer_details/0").2.2.2 0 rfl
      (by decide) rfl⟩

end RAGChallenge
